import Mathlib

/-!
Shallow embedding of the SOST-Captain-America CI harness.

Sources embedded:
- `scripts/ci_band_suite.py`: the Suite Driver (`sha256_file`, `run_capture`,
  `read_help`, `pick_flags`, `BandResult`, `main`).
- `tests/test_import_sost.py`: the import/version smoke test.

External collaborators (the Python interpreter, `scripts/run_sost.py`, the
filesystem, `hashlib.sha256`, `datetime.now`) are modelled as an oracle
`World` record; the driver's observable behaviour is a list of `Event`s
(directory creations, subprocess invocations, file writes) plus an exit code,
mirroring the straight-line control flow of `main` (lines 69-167).
-/

namespace CIBandSuite

/-- Model of `sys.executable` (an opaque interpreter path). -/
def sysExecutable : String := "python"

/-- Model of `repo = Path(".").resolve()` (line 75): an opaque absolute root. -/
def repoRoot : String := "/repo"

/-- Model of `run_sost = repo / "scripts" / "run_sost.py"` (line 79). -/
def runSostPath : String := repoRoot ++ "/scripts/run_sost.py"

/-- File name of the failure list (lines 81, 95, 159). -/
def failuresName : String := "band_suite_failures.txt"

/-- File name of the summary artifact (line 153). -/
def summaryName : String := "band_suite_summary.json"

/-- The `--help` probe command `[sys.executable, str(script), "--help"]` (line 35). -/
def helpCmd : List String := [sysExecutable, runSostPath, "--help"]

/-- Character-list test: does `n` start `h`?  Executable counterpart of a
textual match at the front of a string. -/
def startsWithChars : List Char → List Char → Bool
  | [], _ => true
  | _ :: _, [] => false
  | a :: as, b :: bs => a = b && startsWithChars as bs

/-- Character-list substring test: does `n` occur contiguously in `h`?
Embeds Python's `cand in help_text` (line 45, 52). -/
def hasSubChars : List Char → List Char → Bool
  | n, [] => startsWithChars n []
  | n, c :: t => startsWithChars n (c :: t) || hasSubChars n t

/-- String substring containment, Python's `needle in hay`. -/
def strContains (needle hay : String) : Bool :=
  hasSubChars needle.data hay.data

/-- Input-flag aliases, in preference order (line 44). -/
def inputCandidates : List String := ["--input-csv", "--input_csv", "--input", "-i"]

/-- Output-directory flag aliases, in preference order (line 51). -/
def outdirCandidates : List String := ["--outdir", "--out-dir", "--output-dir", "-o"]

/-- The `for cand in [...]: if cand in help_text: ...; break` loop of
`pick_flags` (lines 44-47 and 51-54): first candidate contained in the help
text wins. -/
def findFirstFlag : List String → String → Option String
  | [], _ => none
  | c :: rest, helpText =>
      if strContains c helpText then some c else findFirstFlag rest helpText

/-- `pick_flags(help_text)` (lines 41-56). -/
def pick_flags (helpText : String) : Option String × Option String :=
  (findFirstFlag inputCandidates helpText, findFirstFlag outdirCandidates helpText)

/-- Total lexicographic order on character lists, by code point.  Executable
model of the comparison underlying Python's `sorted` (line 93). -/
def lexLe : List Char → List Char → Bool
  | [], _ => true
  | _ :: _, [] => false
  | a :: as, b :: bs =>
      if a.toNat < b.toNat then true
      else if b.toNat < a.toNat then false
      else lexLe as bs

/-- Lexicographic order on strings (model of path comparison). -/
def strLe (a b : String) : Bool := lexLe a.data b.data

/-- The ordering relation used to model `sorted(...)` (line 93). -/
def strLeRel (a b : String) : Prop := strLe a b = true

instance : DecidableRel strLeRel := fun a b => instDecidableEqBool (strLe a b) true

/-- `sorted(repo.glob(args.pattern))` (line 93), given the raw glob matches. -/
def sortStrings (l : List String) : List String :=
  List.insertionSort strLeRel l

/-- Final path component: model of `Path(p).name` used by `Path(p).stem`
(line 105).  Processes characters left to right, restarting at separators. -/
def lastComponentChars : List Char → List Char → List Char
  | [], acc => acc.reverse
  | c :: rest, acc =>
      if c = '/' then lastComponentChars rest []
      else lastComponentChars rest (c :: acc)

/-- Index of the last `'.'` in a character list, if any. -/
def rfindDot (cs : List Char) : Option Nat :=
  (List.range cs.length).foldl
    (fun acc i => if cs.get? i = some '.' then some i else acc) none

/-- `Path(p).stem` (line 105): final component with its last suffix removed;
a suffix only counts when the dot is neither the first nor the last character
of the name, matching `pathlib`. -/
def stem (p : String) : String :=
  let name := lastComponentChars p.data []
  match rfindDot name with
  | some i => if 0 < i ∧ i + 1 < name.length then ⟨name.take i⟩ else ⟨name⟩
  | none => ⟨name⟩

/-- Result of running one subprocess: `run_capture` returns
`(p.returncode, p.stdout)` with stderr merged into stdout (lines 22-31). -/
structure ToolRun where
  rc : Int
  out : String
deriving DecidableEq

/-- One entry of a `BandResult`'s report mapping:
`{"path": str(p), "sha256": sha256_file(p)}` (line 127). -/
structure ReportEntry where
  path : String
  sha256 : String
deriving DecidableEq

/-- `BandResult` dataclass (lines 59-66).  The report mapping is an
association list keyed by report file name. -/
structure BandResult where
  band : String
  csv : String
  rc : Int
  outdir : String
  reports : List (String × ReportEntry)
  log_file : String
deriving DecidableEq

/-- The summary record built at lines 143-151. -/
structure Summary where
  timestamp_utc : String
  pattern : String
  total : Nat
  ok : Nat
  failed : Nat
  bands : List BandResult
  input_flag : Option String
  outdir_flag : Option String
deriving DecidableEq

/-- Observable side effects of the driver, in program order. -/
inductive Event where
  | mkdirE (path : String)
  | invoke (cmd : List String)
  | writeFile (path : String) (content : String)
  | writeSummary (path : String) (s : Summary)
deriving DecidableEq

/-- The external environment of one driver run: everything the driver
observes but does not compute.  `runTool` gives the exit code and combined
output of the external tool for a given command line; `reportExists` and
`reportBytes` describe the files the tool left in the output directories;
`sha256` models `hashlib.sha256(...).hexdigest()` as a function of the raw
bytes; `timestamp` models `datetime.now(timezone.utc).isoformat()`. -/
structure World where
  runSostExists : Bool
  helpRun : ToolRun
  globMatches : List String
  runTool : List String → ToolRun
  reportExists : String → Bool
  reportBytes : String → List Nat
  sha256 : List Nat → String
  timestamp : String

/-- `sha256_file(p)` (lines 16-19): the digest of the file's raw bytes. -/
def sha256_file (w : World) (p : String) : String :=
  w.sha256 (w.reportBytes p)

/-- `read_help(script, repo, env)` (lines 34-38): the combined output of the
`--help` probe if non-empty, else the empty string.  The probe's exit code is
discarded. -/
def read_help (w : World) : String :=
  if w.helpRun.out = "" then "" else w.helpRun.out

/-- The three probed report file names (line 124). -/
def reportNames : List String := ["dd_report.json", "ddr_report.json", "e_report.json"]

/-- The report-collection loop (lines 123-127): for each known name that
exists in the band's output directory, record its path and content hash. -/
def collectReports (w : World) (bandOut : String) : List (String × ReportEntry) :=
  reportNames.filterMap fun name =>
    let p := bandOut ++ "/" ++ name
    if w.reportExists p then some (name, ⟨p, sha256_file w p⟩) else none

/-- Command construction for one fixture (lines 109-116): detected input flag
or positional fallback, then the detected output flag if any. -/
def buildCmd (iflag oflag : Option String) (csvPath bandOut : String) : List String :=
  [sysExecutable, runSostPath]
    ++ (match iflag with
        | some f => [f, csvPath]
        | none => [csvPath])
    ++ (match oflag with
        | some f => [f, bandOut]
        | none => [])

/-- `band_out = outdir / f"sost_out_{band}"` (line 106). -/
def bandOutOf (outdir csvPath : String) : String :=
  outdir ++ "/sost_out_" ++ stem csvPath

/-- `log_file = outdir / f"{band}.log"` (line 120). -/
def logFileOf (outdir csvPath : String) : String :=
  outdir ++ "/" ++ stem csvPath ++ ".log"

/-- One failure line `f"{band} rc={rc} csv={csv_path}"` (line 141). -/
def failLine (r : BandResult) : String :=
  r.band ++ " rc=" ++ toString r.rc ++ " csv=" ++ r.csv

/-- One iteration of the fixture loop (lines 104-138): make the band's output
directory, build and run the command, write the log, collect the reports. -/
def runBand (w : World) (outdir : String) (iflag oflag : Option String)
    (csvPath : String) : BandResult × List Event :=
  let band := stem csvPath
  let bandOut := bandOutOf outdir csvPath
  let cmd := buildCmd iflag oflag csvPath bandOut
  let tr := w.runTool cmd
  let logFile := logFileOf outdir csvPath
  (⟨band, csvPath, tr.rc, bandOut, collectReports w bandOut, logFile⟩,
   [Event.mkdirE bandOut, Event.invoke cmd, Event.writeFile logFile tr.out])

/-- The whole fixture loop (lines 101-141): accumulated results, failure
lines, and events, in fixture order. -/
def runBands (w : World) (outdir : String) (iflag oflag : Option String) :
    List String → List BandResult × List String × List Event
  | [] => ([], [], [])
  | csvPath :: restCsvs =>
      let step := runBand w outdir iflag oflag csvPath
      let rest := runBands w outdir iflag oflag restCsvs
      (step.1 :: rest.1,
       (if step.1.rc != 0 then [failLine step.1] else []) ++ rest.2.1,
       step.2 ++ rest.2.2)

/-- `outdir = (repo / args.outdir).resolve()` (line 76). -/
def outdirPathOf (outdirArg : String) : String := repoRoot ++ "/" ++ outdirArg

/-- Full path of the failure list for a run. -/
def failuresPathOf (outdirArg : String) : String :=
  outdirPathOf outdirArg ++ "/" ++ failuresName

/-- Full path of the summary artifact for a run. -/
def summaryPathOf (outdirArg : String) : String :=
  outdirPathOf outdirArg ++ "/" ++ summaryName

/-- `input_flag, outdir_flag = pick_flags(help_text)` (lines 90-91). -/
def detectedFlags (w : World) : Option String × Option String :=
  pick_flags (read_help w)

/-- `csv_files = sorted(repo.glob(args.pattern))` (line 93). -/
def csvFilesOf (w : World) : List String := sortStrings w.globMatches

/-- The `results` list after the loop (line 129). -/
def suiteResults (w : World) (outdirArg : String) : List BandResult :=
  (runBands w (outdirPathOf outdirArg) (detectedFlags w).1 (detectedFlags w).2
    (csvFilesOf w)).1

/-- The `failures` list after the loop (line 141). -/
def suiteFailures (w : World) (outdirArg : String) : List String :=
  (runBands w (outdirPathOf outdirArg) (detectedFlags w).1 (detectedFlags w).2
    (csvFilesOf w)).2.1

/-- The events of the fixture loop, in order. -/
def suiteEvents (w : World) (outdirArg : String) : List Event :=
  (runBands w (outdirPathOf outdirArg) (detectedFlags w).1 (detectedFlags w).2
    (csvFilesOf w)).2.2

/-- The command the driver runs for one fixture, given the detected flags. -/
def bandCmd (w : World) (outdirArg csvPath : String) : List String :=
  buildCmd (detectedFlags w).1 (detectedFlags w).2 csvPath
    (bandOutOf (outdirPathOf outdirArg) csvPath)

/-- `"\n".join(failures)` (line 160). -/
def joinLines : List String → String
  | [] => ""
  | [x] => x
  | x :: y :: rest => x ++ "\n" ++ joinLines (y :: rest)

/-- The summary dictionary (lines 143-151). -/
def suiteSummary (w : World) (pattern outdirArg : String) : Summary :=
  { timestamp_utc := w.timestamp
    pattern := pattern
    total := (suiteResults w outdirArg).length
    ok := ((suiteResults w outdirArg).filter fun r => r.rc == 0).length
    failed := ((suiteResults w outdirArg).filter fun r => r.rc != 0).length
    bands := suiteResults w outdirArg
    input_flag := (detectedFlags w).1
    outdir_flag := (detectedFlags w).2 }

/-- Outcome of one driver run: the value of `main()` plus the event trace. -/
structure RunOutcome where
  exitCode : Int
  trace : List Event
deriving DecidableEq

/-- The tail of `main` once both configuration checks passed (lines 101-167):
run every fixture, write the summary, then on any failure write the failure
list and return 1, else return 0. -/
def aggOutcome (w : World) (pattern outdirArg : String) : RunOutcome :=
  let base := [Event.mkdirE (outdirPathOf outdirArg), Event.invoke helpCmd]
      ++ suiteEvents w outdirArg
  let sumEv := Event.writeSummary (summaryPathOf outdirArg)
      (suiteSummary w pattern outdirArg)
  if (suiteFailures w outdirArg).isEmpty then
    ⟨0, base ++ [sumEv]⟩
  else
    ⟨1, base ++ [sumEv,
        Event.writeFile (failuresPathOf outdirArg)
          (joinLines (suiteFailures w outdirArg) ++ "\n")]⟩

/-- `main()` (lines 69-167).  The first branch is the missing-tool check
(lines 79-85), taken before the `--help` probe; the second is the
empty-glob check (lines 94-99), taken after the probe; otherwise the run
reaches aggregation.  Console prints and the `PYTHONPATH` augmentation
(lines 87-88) have no bearing on the claims and are not recorded. -/
def mainRun (w : World) (pattern outdirArg : String) : RunOutcome :=
  if !w.runSostExists then
    ⟨2, [Event.mkdirE (outdirPathOf outdirArg),
         Event.writeFile (failuresPathOf outdirArg) "Missing scripts/run_sost.py\n"]⟩
  else if (csvFilesOf w).isEmpty then
    ⟨2, [Event.mkdirE (outdirPathOf outdirArg), Event.invoke helpCmd,
         Event.writeFile (failuresPathOf outdirArg)
           ("No CSV matched pattern: " ++ pattern ++ "\n")]⟩
  else aggOutcome w pattern outdirArg

/-- Predicate picking out summary-write events. -/
def isSummaryWrite : Event → Bool
  | Event.writeSummary _ _ => true
  | _ => false

/-- A flat model of the relevant files: an association list from path to
content, where a write replaces any previous entry for the same path. -/
def FS := List (String × String)

/-- Read a file's content, if present. -/
def fsGet : FS → String → Option String
  | [], _ => none
  | (q, v) :: rest, p => if q = p then some v else fsGet rest p

/-- Overwrite (or create) a file. -/
def fsSet : FS → String → String → FS
  | [], p, v => [(p, v)]
  | (q, u) :: rest, p, v =>
      if q = p then (p, v) :: rest else (q, u) :: fsSet rest p v

/-- Serialization of the summary, standing in for `json.dumps(summary, ...)`
(line 154); the claims depend only on which structured summary is written,
never on the byte-exact JSON text. -/
def summaryText (s : Summary) : String :=
  "total=" ++ toString s.total ++ " ok=" ++ toString s.ok
    ++ " failed=" ++ toString s.failed

/-- Effect of one event on the filesystem model. -/
def applyEvent (fs : FS) : Event → FS
  | Event.mkdirE _ => fs
  | Event.invoke _ => fs
  | Event.writeFile p c => fsSet fs p c
  | Event.writeSummary p s => fsSet fs p (summaryText s)

/-- Filesystem state after a run, starting from `fs0`. -/
def runFS (fs0 : FS) (o : RunOutcome) : FS :=
  o.trace.foldl applyEvent fs0

/-- The path an event writes to, if it writes at all. -/
def eventWritePath : Event → Option String
  | Event.writeFile q _ => some q
  | Event.writeSummary q _ => some q
  | _ => none

/-- Last character of a string, used to separate artifact paths by their
distinct extensions. -/
def strLast (s : String) : Option Char := s.data.getLast?

end CIBandSuite

namespace SmokeTest

/-- A Python attribute value, as far as the smoke test can observe it:
either a string or some non-string value. -/
inductive PyValue where
  | str (s : String)
  | nonStr
deriving DecidableEq

/-- The imported `sost` module, reduced to what the test reads: its
`__version__` attribute, when present. -/
structure SostModule where
  version : Option PyValue
deriving DecidableEq

/-- `test_import_sost_and_version` (tests/test_import_sost.py lines 4-9).
`imported = none` models `import sost` raising; then the three assertions in
order: `hasattr`, `isinstance(..., str)`, and non-emptiness (Python
truthiness of a string).  Returns whether the test passes. -/
def test_import_sost_and_version (imported : Option SostModule) : Bool :=
  match imported with
  | none => false
  | some m =>
      match m.version with
      | none => false
      | some (PyValue.str s) => !s.isEmpty
      | some PyValue.nonStr => false

end SmokeTest

namespace CIBandSuite

/-- A world whose external tool always succeeds and writes no reports; used
as concrete input for witnesses. -/
def wQuiet : World :=
  { runSostExists := true
    helpRun := ⟨0, ""⟩
    globMatches := [repoRoot ++ "/test_data/band_b.csv", repoRoot ++ "/test_data/band_a.csv"]
    runTool := fun _ => ⟨0, "ok"⟩
    reportExists := fun _ => false
    reportBytes := fun _ => []
    sha256 := fun bs => toString bs.length
    timestamp := "2026-01-01T00:00:00+00:00" }

/-- A world with the tool present but no fixtures matched. -/
def wNoFix : World :=
  { wQuiet with globMatches := [] }

/-- A world with the tool missing from disk. -/
def wNoTool : World :=
  { wQuiet with runSostExists := false }

/-- A world where the second fixture fails (exit code 3) and the first
writes a `dd_report.json`; the help text advertises `--input-csv` and
`--outdir`. -/
def wMixed : World :=
  { runSostExists := true
    helpRun := ⟨0, "usage: run_sost.py --input-csv FILE --outdir DIR"⟩
    globMatches := [repoRoot ++ "/test_data/band_a.csv", repoRoot ++ "/test_data/band_b.csv"]
    runTool := fun cmd => if cmd.contains (repoRoot ++ "/test_data/band_b.csv") then ⟨3, "boom"⟩ else ⟨0, "ok"⟩
    reportExists := fun p => p = outdirPathOf "_ci_out" ++ "/sost_out_band_a/dd_report.json"
    reportBytes := fun _ => [1, 2, 3]
    sha256 := fun bs => "h" ++ toString bs.length
    timestamp := "2026-01-01T00:00:00+00:00" }

/-- An initial filesystem holding a stale failure list from an earlier run. -/
def staleFS : FS := [(failuresPathOf "_ci_out", "stale")]

/- ------------------------------------------------------------------ -/
/- Helper lemmas.                                                      -/
/- ------------------------------------------------------------------ -/

lemma filter_rc_split (l : List BandResult) :
    (l.filter fun r => r.rc == 0).length + (l.filter fun r => r.rc != 0).length
      = l.length := by
  induction l with
  | nil => rfl
  | cons a t ih =>
      simp only [List.filter_cons]
      cases hb : (a.rc == 0)
      · have hb2 : (a.rc != 0) = true := by simp [bne, hb]
        simp [hb, hb2]
        omega
      · have hb2 : (a.rc != 0) = false := by simp [bne, hb]
        simp [hb, hb2]
        omega

lemma runBands_results (w : World) (outdir : String) (i f : Option String) :
    ∀ csvs, (runBands w outdir i f csvs).1
      = csvs.map fun c => (runBand w outdir i f c).1 := by
  intro csvs
  induction csvs with
  | nil => rfl
  | cons c t ih => simp [runBands, ih]

lemma runBands_failures (w : World) (outdir : String) (i f : Option String) :
    ∀ csvs, (runBands w outdir i f csvs).2.1
      = (((runBands w outdir i f csvs).1).filter fun r => r.rc != 0).map failLine := by
  intro csvs
  induction csvs with
  | nil => rfl
  | cons c t ih =>
      simp only [runBands]
      cases hb : ((runBand w outdir i f c).1.rc != 0)
      · simp [List.filter_cons, hb, ih]
      · simp [List.filter_cons, hb, ih]

lemma runBands_invoke_mem (w : World) (outdir : String) (i f : Option String) :
    ∀ csvs, ∀ c ∈ csvs,
      Event.invoke (buildCmd i f c (bandOutOf outdir c))
        ∈ (runBands w outdir i f csvs).2.2 := by
  intro csvs
  induction csvs with
  | nil => intro c hc; cases hc
  | cons a t ih =>
      intro c hc
      simp only [runBands]
      rcases List.mem_cons.mp hc with h | h
      · subst h
        exact List.mem_append.mpr (Or.inl (by simp [runBand]))
      · exact List.mem_append.mpr (Or.inr (ih c h))

lemma runBands_events_shape (w : World) (outdir : String) (i f : Option String) :
    ∀ csvs, ∀ e ∈ (runBands w outdir i f csvs).2.2,
      (∃ p, e = Event.mkdirE p) ∨ (∃ cmd, e = Event.invoke cmd) ∨
      (∃ c out, e = Event.writeFile (logFileOf outdir c) out) := by
  intro csvs
  induction csvs with
  | nil => intro e he; cases he
  | cons a t ih =>
      intro e he
      simp only [runBands] at he
      rcases List.mem_append.mp he with h | h
      · simp only [runBand, List.mem_cons, List.mem_singleton,
          List.not_mem_nil, or_false] at h
        rcases h with h | h | h
        · exact Or.inl ⟨_, h⟩
        · exact Or.inr (Or.inl ⟨_, h⟩)
        · exact Or.inr (Or.inr ⟨a, _, h⟩)
      · exact ih e h

lemma csvFilesOf_eq_nil_iff (w : World) : csvFilesOf w = [] ↔ w.globMatches = [] := by
  unfold csvFilesOf sortStrings
  constructor
  · intro h
    have hp := List.perm_insertionSort strLeRel w.globMatches
    rw [h] at hp
    exact (List.Perm.nil_eq hp).symm
  · intro h
    rw [h]
    rfl

lemma mainRun_agg (w : World) (pattern outdirArg : String)
    (hE : w.runSostExists = true) (hG : w.globMatches ≠ []) :
    mainRun w pattern outdirArg = aggOutcome w pattern outdirArg := by
  have h2 : (csvFilesOf w).isEmpty = false := by
    rcases hc : csvFilesOf w with _ | _
    · exact absurd ((csvFilesOf_eq_nil_iff w).mp hc) hG
    · rfl
  unfold mainRun
  rw [hE, h2]
  rfl

/- ------------------------------------------------------------------ -/
/- C1: summary count invariant.                                        -/
/- ------------------------------------------------------------------ -/

/-- C1: for every run that reaches aggregation (tool present, at least one
fixture matched) the written summary satisfies
`ok + failed = total = len(bands) = number of matched CSV files`, and `ok`
(resp. `failed`) counts exactly the bands with `rc == 0` (resp. `rc != 0`). -/
theorem ci_summary_invariant (w : World) (pattern outdirArg : String)
    (hE : w.runSostExists = true) (hG : w.globMatches ≠ []) :
    Event.writeSummary (summaryPathOf outdirArg) (suiteSummary w pattern outdirArg)
        ∈ (mainRun w pattern outdirArg).trace ∧
    (suiteSummary w pattern outdirArg).ok + (suiteSummary w pattern outdirArg).failed
        = (suiteSummary w pattern outdirArg).total ∧
    (suiteSummary w pattern outdirArg).total
        = (suiteSummary w pattern outdirArg).bands.length ∧
    (suiteSummary w pattern outdirArg).total = w.globMatches.length ∧
    (suiteSummary w pattern outdirArg).ok
        = ((suiteSummary w pattern outdirArg).bands.filter fun r => r.rc == 0).length ∧
    (suiteSummary w pattern outdirArg).failed
        = ((suiteSummary w pattern outdirArg).bands.filter fun r => r.rc != 0).length := by
  refine ⟨?_, filter_rc_split _, rfl, ?_, rfl, rfl⟩
  · rw [mainRun_agg w pattern outdirArg hE hG]
    unfold aggOutcome
    by_cases hf : (suiteFailures w outdirArg).isEmpty
    · simp [hf]
    · simp [hf]
  · show (suiteResults w outdirArg).length = w.globMatches.length
    rw [suiteResults, runBands_results, List.length_map]
    exact (List.perm_insertionSort strLeRel w.globMatches).length_eq

/-- Witness for C1 at a concrete world with one passing and one failing band. -/
theorem ci_summary_invariant_witness :
    (suiteSummary wMixed "pat" "_ci_out").ok + (suiteSummary wMixed "pat" "_ci_out").failed
      = (suiteSummary wMixed "pat" "_ci_out").total ∧
    (suiteSummary wMixed "pat" "_ci_out").total = wMixed.globMatches.length :=
  ⟨(ci_summary_invariant wMixed "pat" "_ci_out" rfl (by decide)).2.1,
   (ci_summary_invariant wMixed "pat" "_ci_out" rfl (by decide)).2.2.2.1⟩

lemma suiteResults_map_csv (w : World) (outdirArg : String) :
    (suiteResults w outdirArg).map (fun r => r.csv) = csvFilesOf w := by
  rw [suiteResults, runBands_results, List.map_map]
  show (csvFilesOf w).map (fun c => c) = csvFilesOf w
  exact List.map_id' (csvFilesOf w)

lemma suiteFailures_eq (w : World) (outdirArg : String) :
    suiteFailures w outdirArg
      = ((suiteResults w outdirArg).filter fun r => r.rc != 0).map failLine :=
  runBands_failures w (outdirPathOf outdirArg) (detectedFlags w).1 (detectedFlags w).2
    (csvFilesOf w)

lemma suiteFailures_nonempty_iff (w : World) (outdirArg : String) :
    suiteFailures w outdirArg ≠ [] ↔ ∃ r ∈ suiteResults w outdirArg, r.rc ≠ 0 := by
  rw [suiteFailures_eq]
  rw [ne_eq, List.map_eq_nil_iff, List.filter_eq_nil_iff]
  simp [bne]

lemma aggOutcome_exit (w : World) (pattern outdirArg : String) :
    (aggOutcome w pattern outdirArg).exitCode
      = if (suiteFailures w outdirArg).isEmpty then 0 else 1 := by
  unfold aggOutcome
  by_cases h : (suiteFailures w outdirArg).isEmpty
  · simp [h]
  · simp [h]

lemma mainRun_exit_one_iff (w : World) (pattern outdirArg : String)
    (hE : w.runSostExists = true) (hG : w.globMatches ≠ []) :
    (mainRun w pattern outdirArg).exitCode = 1
      ↔ ∃ r ∈ suiteResults w outdirArg, r.rc ≠ 0 := by
  rw [mainRun_agg w pattern outdirArg hE hG, aggOutcome_exit,
    ← suiteFailures_nonempty_iff w outdirArg]
  by_cases h : (suiteFailures w outdirArg).isEmpty
  · simp [h, List.isEmpty_iff.mp h]
  · have h2 : suiteFailures w outdirArg ≠ [] := by
      intro hc; exact h (by simp [hc])
    simp [h, h2]

/- ------------------------------------------------------------------ -/
/- C2: failure isolation, aggregate exit status, failure list.         -/
/- ------------------------------------------------------------------ -/

/-- C2: with the tool present and fixtures matched, every fixture is
processed regardless of individual failures (one result per matched file, in
order); the driver exits 1 iff some fixture exited nonzero, otherwise 0; on
exit 1 it writes the failure list, which is exactly one line per failing
band, and every listed line stems from a band with nonzero exit code. -/
theorem ci_failure_isolation_and_exit (w : World) (pattern outdirArg : String)
    (hE : w.runSostExists = true) (hG : w.globMatches ≠ []) :
    (suiteResults w outdirArg).map (fun r => r.csv) = csvFilesOf w ∧
    (suiteResults w outdirArg).length = (csvFilesOf w).length ∧
    ((mainRun w pattern outdirArg).exitCode = 1
        ↔ ∃ r ∈ suiteResults w outdirArg, r.rc ≠ 0) ∧
    ((mainRun w pattern outdirArg).exitCode = 0
        ↔ ∀ r ∈ suiteResults w outdirArg, r.rc = 0) ∧
    suiteFailures w outdirArg
        = ((suiteResults w outdirArg).filter fun r => r.rc != 0).map failLine ∧
    ((mainRun w pattern outdirArg).exitCode = 1 →
        Event.writeFile (failuresPathOf outdirArg)
            (joinLines (suiteFailures w outdirArg) ++ "\n")
          ∈ (mainRun w pattern outdirArg).trace) ∧
    (∀ line ∈ suiteFailures w outdirArg,
        ∃ r ∈ suiteResults w outdirArg, r.rc ≠ 0 ∧ line = failLine r) := by
  refine ⟨suiteResults_map_csv w outdirArg, ?_,
    mainRun_exit_one_iff w pattern outdirArg hE hG, ?_, suiteFailures_eq w outdirArg,
    ?_, ?_⟩
  · rw [suiteResults, runBands_results, List.length_map]
  · rw [mainRun_agg w pattern outdirArg hE hG, aggOutcome_exit]
    by_cases h : (suiteFailures w outdirArg).isEmpty
    · have h2 := List.isEmpty_iff.mp h
      have h3 : ¬ ∃ r ∈ suiteResults w outdirArg, r.rc ≠ 0 := by
        rw [← suiteFailures_nonempty_iff w outdirArg]
        simp [h2]
      push_neg at h3
      simp only [h, if_true]
      constructor
      · intro _; exact h3
      · intro _; trivial
    · have h2 : suiteFailures w outdirArg ≠ [] := by
        intro hc; exact h (by simp [hc])
      obtain ⟨r, hr, hrc⟩ := (suiteFailures_nonempty_iff w outdirArg).mp h2
      simp only [h, if_false]
      constructor
      · intro hc; cases hc
      · intro hall; exact absurd (hall r hr) hrc
  · intro h1
    rw [mainRun_agg w pattern outdirArg hE hG] at h1 ⊢
    unfold aggOutcome at h1 ⊢
    by_cases h : (suiteFailures w outdirArg).isEmpty
    · simp [h] at h1
    · simp [h]
  · intro line hline
    rw [suiteFailures_eq w outdirArg] at hline
    obtain ⟨r, hr, hl⟩ := List.mem_map.mp hline
    have hr2 := List.mem_filter.mp hr
    refine ⟨r, hr2.1, ?_, hl.symm⟩
    have hb := hr2.2
    simpa [bne] using hb

/-- Witness for C2 at a concrete world with one passing and one failing band. -/
theorem ci_failure_isolation_and_exit_witness :
    (mainRun wMixed "pat" "_ci_out").exitCode = 1
      ↔ ∃ r ∈ suiteResults wMixed "_ci_out", r.rc ≠ 0 :=
  (ci_failure_isolation_and_exit wMixed "pat" "_ci_out" rfl (by decide)).2.2.1

/- ------------------------------------------------------------------ -/
/- C3: configuration errors (missing tool / empty glob).               -/
/- ------------------------------------------------------------------ -/

/-- Counterexample to C3 as stated: with the tool present but zero fixtures
matched, the driver exits 2 and writes the failure note, yet the external
tool HAS been invoked once — the `--help` probe (line 90) runs before the
empty-glob check (line 94). -/
theorem ci_config_probe_counterexample :
    wNoFix.runSostExists = true ∧ wNoFix.globMatches = [] ∧
    (mainRun wNoFix "test_data/band_*.csv" "_ci_out").exitCode = 2 ∧
    Event.invoke helpCmd ∈ (mainRun wNoFix "test_data/band_*.csv" "_ci_out").trace := by
  decide

/-- C3 (amended): if the external tool is missing or zero fixtures match,
the driver writes a failure note and returns exit status 2 without running
the tool on any fixture and without writing a summary; the only invocation
that may occur is the `--help` probe, and when the tool is missing no
invocation occurs at all. -/
theorem ci_config_error_exit2 (w : World) (pattern outdirArg : String)
    (h : w.runSostExists = false ∨ w.globMatches = []) :
    (mainRun w pattern outdirArg).exitCode = 2 ∧
    (∃ msg, Event.writeFile (failuresPathOf outdirArg) msg
        ∈ (mainRun w pattern outdirArg).trace) ∧
    (∀ cmd, Event.invoke cmd ∈ (mainRun w pattern outdirArg).trace → cmd = helpCmd) ∧
    (w.runSostExists = false →
        ∀ cmd, Event.invoke cmd ∉ (mainRun w pattern outdirArg).trace) ∧
    (∀ p s, Event.writeSummary p s ∉ (mainRun w pattern outdirArg).trace) := by
  cases hb : w.runSostExists
  · have hm : mainRun w pattern outdirArg
        = ⟨2, [Event.mkdirE (outdirPathOf outdirArg),
               Event.writeFile (failuresPathOf outdirArg)
                 "Missing scripts/run_sost.py\n"]⟩ := by
      unfold mainRun
      rw [hb]
      rfl
    rw [hm]
    refine ⟨rfl, ⟨"Missing scripts/run_sost.py\n", by simp⟩, ?_, ?_, ?_⟩
    · intro cmd hc
      simp at hc
    · intro _ cmd hc
      simp at hc
    · intro p s hc
      simp at hc
  · have hGlob : w.globMatches = [] := by
      rcases h with h1 | h2
      · rw [hb] at h1; cases h1
      · exact h2
    have hcsv : (csvFilesOf w).isEmpty = true := by
      rw [(csvFilesOf_eq_nil_iff w).mpr hGlob]
      rfl
    have hm : mainRun w pattern outdirArg
        = ⟨2, [Event.mkdirE (outdirPathOf outdirArg), Event.invoke helpCmd,
               Event.writeFile (failuresPathOf outdirArg)
                 ("No CSV matched pattern: " ++ pattern ++ "\n")]⟩ := by
      unfold mainRun
      rw [hb]
      simp [hcsv]
    rw [hm]
    refine ⟨rfl, ⟨"No CSV matched pattern: " ++ pattern ++ "\n", by simp⟩, ?_, ?_, ?_⟩
    · intro cmd hc
      simp at hc
      exact hc
    · intro hF
      exact absurd hF (by simp [hb])
    · intro p s hc
      simp at hc

/-- Witness for the amended C3 at a world whose tool is missing. -/
theorem ci_config_error_exit2_witness :
    (mainRun wNoTool "pat" "_ci_out").exitCode = 2 :=
  (ci_config_error_exit2 wNoTool "pat" "_ci_out" (Or.inl rfl)).1

/- ------------------------------------------------------------------ -/
/- C4: preference-ordered flag detection.                              -/
/- ------------------------------------------------------------------ -/

lemma findFirstFlag_eq_some (helpText : String) :
    ∀ cands c, findFirstFlag cands helpText = some c →
      strContains c helpText = true ∧
      ∃ pre post, cands = pre ++ c :: post ∧
        ∀ c2 ∈ pre, strContains c2 helpText = false := by
  intro cands
  induction cands with
  | nil => intro c hc; cases hc
  | cons a t ih =>
      intro c hc
      cases ha : strContains a helpText
      · simp only [findFirstFlag, ha] at hc
        simp only [Bool.false_eq_true, if_false] at hc
        obtain ⟨h1, pre, post, h2, h3⟩ := ih c hc
        refine ⟨h1, a :: pre, post, by rw [h2]; rfl, ?_⟩
        intro c2 hc2
        rcases List.mem_cons.mp hc2 with h | h
        · rw [h]; exact ha
        · exact h3 c2 h
      · simp only [findFirstFlag, ha, if_true] at hc
        have hac : a = c := by
          injection hc
        subst hac
        exact ⟨ha, [], t, rfl, by intro c2 hc2; cases hc2⟩

lemma findFirstFlag_eq_none (helpText : String) :
    ∀ cands, (∀ c ∈ cands, strContains c helpText = false) →
      findFirstFlag cands helpText = none := by
  intro cands
  induction cands with
  | nil => intro _; rfl
  | cons a t ih =>
      intro hall
      have ha := hall a (List.mem_cons_self a t)
      simp only [findFirstFlag, ha, Bool.false_eq_true, if_false]
      exact ih fun c hc => hall c (List.mem_cons_of_mem a hc)

/-- C4: `pick_flags` selects, for each alias family, the first candidate in
preference order that occurs in the help text; a text containing
`--input-csv` yields `--input-csv` exactly; a text containing no alias of a
family yields no flag for it, and with neither flag detected the invocation
is the fixture path as positional argument with no output flag appended. -/
theorem ci_pick_flags_preference (h : String) :
    (∀ c, (pick_flags h).1 = some c →
        strContains c h = true ∧
        ∃ pre post, inputCandidates = pre ++ c :: post ∧
          ∀ c2 ∈ pre, strContains c2 h = false) ∧
    (∀ c, (pick_flags h).2 = some c →
        strContains c h = true ∧
        ∃ pre post, outdirCandidates = pre ++ c :: post ∧
          ∀ c2 ∈ pre, strContains c2 h = false) ∧
    (strContains "--input-csv" h = true → (pick_flags h).1 = some "--input-csv") ∧
    ((∀ c ∈ inputCandidates, strContains c h = false) → (pick_flags h).1 = none) ∧
    ((∀ c ∈ outdirCandidates, strContains c h = false) → (pick_flags h).2 = none) ∧
    (∀ csvPath bandOut, (pick_flags h).1 = none → (pick_flags h).2 = none →
        buildCmd (pick_flags h).1 (pick_flags h).2 csvPath bandOut
          = [sysExecutable, runSostPath, csvPath]) := by
  refine ⟨fun c => findFirstFlag_eq_some h inputCandidates c,
    fun c => findFirstFlag_eq_some h outdirCandidates c, ?_, ?_, ?_, ?_⟩
  · intro hc
    show findFirstFlag inputCandidates h = some "--input-csv"
    simp only [inputCandidates, findFirstFlag, hc, if_true]
  · exact findFirstFlag_eq_none h inputCandidates
  · exact findFirstFlag_eq_none h outdirCandidates
  · intro csvPath bandOut h1 h2
    rw [h1, h2]
    rfl

/-- Witness for C4: a help text whose first occurring alias is `--input-csv`. -/
theorem ci_pick_flags_preference_witness :
    (pick_flags "usage: run_sost.py --input-csv FILE").1 = some "--input-csv" :=
  (ci_pick_flags_preference "usage: run_sost.py --input-csv FILE").2.2.1 (by decide)

/- ------------------------------------------------------------------ -/
/- C9: matching is plain substring containment, not token-based.       -/
/- ------------------------------------------------------------------ -/

/-- C9: the alias scan is plain substring containment: a help text
containing only `--inputs` (not any alias as a standalone token) still
selects `--input`, and one containing only `--ignore` still selects `-i`. -/
theorem ci_pick_flags_substring_matching :
    pick_flags "--inputs" = (some "--input", none) ∧
    pick_flags "--ignore" = (some "-i", none) ∧
    "--inputs" ∉ inputCandidates ++ outdirCandidates ∧
    "--ignore" ∉ inputCandidates ++ outdirCandidates ∧
    (∀ ch ∈ ("--inputs" : String).data, ch ≠ ' ') ∧
    (∀ ch ∈ ("--ignore" : String).data, ch ≠ ' ') := by
  decide

/- ------------------------------------------------------------------ -/
/- C5: report probing and content hashing.                             -/
/- ------------------------------------------------------------------ -/

/-- C5: after a band's run exactly the three known report names are probed
in the band's output directory; every recorded entry is one of those names,
exists there, carries the probed path, and its recorded hash equals the hash
recomputed from that file's bytes; a missing file yields no entry and no
error; and the band's result stores exactly this mapping. -/
theorem ci_report_collection (w : World) (bandOut : String) :
    (∀ nm entry, (nm, entry) ∈ collectReports w bandOut →
        nm ∈ reportNames ∧ entry.path = bandOut ++ "/" ++ nm ∧
        w.reportExists entry.path = true ∧
        entry.sha256 = w.sha256 (w.reportBytes entry.path)) ∧
    (∀ nm ∈ reportNames, w.reportExists (bandOut ++ "/" ++ nm) = true →
        (nm, ⟨bandOut ++ "/" ++ nm, sha256_file w (bandOut ++ "/" ++ nm)⟩)
          ∈ collectReports w bandOut) ∧
    (∀ nm entry, w.reportExists (bandOut ++ "/" ++ nm) = false →
        (nm, entry) ∉ collectReports w bandOut) ∧
    (∀ outdir iflag oflag csvPath,
        ((runBand w outdir iflag oflag csvPath).1).reports
          = collectReports w (bandOutOf outdir csvPath)) := by
  refine ⟨?_, ?_, ?_, fun _ _ _ _ => rfl⟩
  · intro nm entry hmem
    unfold collectReports at hmem
    obtain ⟨a, ha, hf⟩ := List.mem_filterMap.mp hmem
    by_cases hex : w.reportExists (bandOut ++ "/" ++ a) = true
    · simp only [hex, if_true] at hf
      injection hf with hpair
      injection hpair with h1 h2
      subst h1
      subst h2
      exact ⟨ha, rfl, hex, rfl⟩
    · rw [if_neg hex] at hf
      exact Option.noConfusion hf
  · intro nm hnm hex
    unfold collectReports
    exact List.mem_filterMap.mpr ⟨nm, hnm, by simp [hex]⟩
  · intro nm entry hex hmem
    unfold collectReports at hmem
    obtain ⟨a, ha, hf⟩ := List.mem_filterMap.mp hmem
    by_cases hex2 : w.reportExists (bandOut ++ "/" ++ a) = true
    · simp only [hex2, if_true] at hf
      injection hf with hpair
      injection hpair with h1 h2
      subst h1
      rw [hex2] at hex
      cases hex
    · rw [if_neg hex2] at hf
      exact Option.noConfusion hf

/-- Witness for C5: the concrete report written by the passing band. -/
theorem ci_report_collection_witness :
    ("dd_report.json",
      (⟨"/repo/_ci_out/sost_out_band_a" ++ "/" ++ "dd_report.json",
        sha256_file wMixed ("/repo/_ci_out/sost_out_band_a" ++ "/" ++ "dd_report.json")⟩
        : ReportEntry))
      ∈ collectReports wMixed "/repo/_ci_out/sost_out_band_a" :=
  (ci_report_collection wMixed "/repo/_ci_out/sost_out_band_a").2.1 "dd_report.json"
    (by decide) (by decide)

/- ------------------------------------------------------------------ -/
/- Order lemmas for the sorting relation.                              -/
/- ------------------------------------------------------------------ -/

lemma lexLe_total : ∀ as bs : List Char, lexLe as bs = true ∨ lexLe bs as = true := by
  intro as
  induction as with
  | nil => intro bs; exact Or.inl rfl
  | cons a as ih =>
      intro bs
      cases bs with
      | nil => exact Or.inr rfl
      | cons b bs =>
          by_cases h1 : a.toNat < b.toNat
          · left; simp [lexLe, h1]
          · by_cases h2 : b.toNat < a.toNat
            · right; simp [lexLe, h2]
            · rcases ih bs with h | h
              · left; simp [lexLe, h1, h2, h]
              · right; simp [lexLe, h1, h2, h]

lemma lexLe_trans : ∀ as bs cs : List Char,
    lexLe as bs = true → lexLe bs cs = true → lexLe as cs = true := by
  intro as
  induction as with
  | nil => intro bs cs _ _; rfl
  | cons a as ih =>
      intro bs cs h1 h2
      cases bs with
      | nil => simp [lexLe] at h1
      | cons b bs =>
          cases cs with
          | nil => simp [lexLe] at h2
          | cons c cs =>
              simp only [lexLe] at h1 h2 ⊢
              by_cases hab : a.toNat < b.toNat
              · by_cases hbc : b.toNat < c.toNat
                · have hac : a.toNat < c.toNat := Nat.lt_trans hab hbc
                  simp [hac]
                · by_cases hcb : c.toNat < b.toNat
                  · simp [hbc, hcb] at h2
                  · have hac : a.toNat < c.toNat := by omega
                    simp [hac]
              · by_cases hba : b.toNat < a.toNat
                · simp [hab, hba] at h1
                · have h1x : lexLe as bs = true := by simpa [hab, hba] using h1
                  by_cases hbc : b.toNat < c.toNat
                  · have hac : a.toNat < c.toNat := by omega
                    simp [hac]
                  · by_cases hcb : c.toNat < b.toNat
                    · simp [hbc, hcb] at h2
                    · have h2x : lexLe bs cs = true := by simpa [hbc, hcb] using h2
                      have hac1 : ¬ a.toNat < c.toNat := by omega
                      have hac2 : ¬ c.toNat < a.toNat := by omega
                      simp [hac1, hac2, ih bs cs h1x h2x]

/- ------------------------------------------------------------------ -/
/- C6: summary written once, last, with ordered band records.          -/
/- ------------------------------------------------------------------ -/

lemma aggOutcome_trace (w : World) (pattern outdirArg : String) :
    ∃ post, (aggOutcome w pattern outdirArg).trace
        = ([Event.mkdirE (outdirPathOf outdirArg), Event.invoke helpCmd]
            ++ suiteEvents w outdirArg)
          ++ Event.writeSummary (summaryPathOf outdirArg)
              (suiteSummary w pattern outdirArg) :: post ∧
      (post = [] ∨ post = [Event.writeFile (failuresPathOf outdirArg)
          (joinLines (suiteFailures w outdirArg) ++ "\n")]) := by
  unfold aggOutcome
  by_cases h : (suiteFailures w outdirArg).isEmpty
  · refine ⟨[], ?_, Or.inl rfl⟩
    simp [h]
  · refine ⟨[Event.writeFile (failuresPathOf outdirArg)
      (joinLines (suiteFailures w outdirArg) ++ "\n")], ?_, Or.inr rfl⟩
    simp [h]

lemma suiteEvents_no_summary (w : World) (outdirArg : String) :
    ∀ e ∈ suiteEvents w outdirArg, isSummaryWrite e = false := by
  intro e he
  rcases runBands_events_shape w (outdirPathOf outdirArg) (detectedFlags w).1
      (detectedFlags w).2 (csvFilesOf w) e he with ⟨p, hp⟩ | ⟨cmd, hc⟩ | ⟨c, out, ho⟩
  · rw [hp]; rfl
  · rw [hc]; rfl
  · rw [ho]; rfl

/-- C6: in every run that reaches aggregation (failing fixtures included)
the trace contains exactly one summary write; it comes after every fixture
invocation and nothing after it invokes anything; the summary carries the
environment timestamp, the pattern, the detected flags, and its band records
follow the matched files in sorted glob order (sorted and a permutation of
the raw glob matches). -/
theorem ci_summary_once_and_ordered (w : World) (pattern outdirArg : String)
    (hE : w.runSostExists = true) (hG : w.globMatches ≠ []) :
    ((mainRun w pattern outdirArg).trace.filter isSummaryWrite)
        = [Event.writeSummary (summaryPathOf outdirArg)
            (suiteSummary w pattern outdirArg)] ∧
    (∃ pre post,
        (mainRun w pattern outdirArg).trace
          = pre ++ Event.writeSummary (summaryPathOf outdirArg)
              (suiteSummary w pattern outdirArg) :: post ∧
        (∀ c ∈ csvFilesOf w, Event.invoke (bandCmd w outdirArg c) ∈ pre) ∧
        (∀ e ∈ post, ∀ cmd, e ≠ Event.invoke cmd)) ∧
    (suiteSummary w pattern outdirArg).timestamp_utc = w.timestamp ∧
    (suiteSummary w pattern outdirArg).pattern = pattern ∧
    (suiteSummary w pattern outdirArg).input_flag = (detectedFlags w).1 ∧
    (suiteSummary w pattern outdirArg).outdir_flag = (detectedFlags w).2 ∧
    (suiteSummary w pattern outdirArg).bands.map (fun r => r.csv) = csvFilesOf w ∧
    List.Sorted strLeRel (csvFilesOf w) ∧
    List.Perm (csvFilesOf w) w.globMatches := by
  obtain ⟨post, htr, hpost⟩ := aggOutcome_trace w pattern outdirArg
  have hmm := mainRun_agg w pattern outdirArg hE hG
  refine ⟨?_, ⟨_, post, by rw [hmm, htr], ?_, ?_⟩, rfl, rfl, rfl, rfl,
    suiteResults_map_csv w outdirArg, ?_, List.perm_insertionSort strLeRel w.globMatches⟩
  · rw [hmm, htr, List.filter_append, List.filter_append]
    have h1 : ([Event.mkdirE (outdirPathOf outdirArg),
        Event.invoke helpCmd]).filter isSummaryWrite = [] := rfl
    have h2 : (suiteEvents w outdirArg).filter isSummaryWrite = [] :=
      List.filter_eq_nil_iff.mpr fun e he => by
        rw [suiteEvents_no_summary w outdirArg e he]; exact Bool.false_ne_true
    have h3 : (Event.writeSummary (summaryPathOf outdirArg)
        (suiteSummary w pattern outdirArg) :: post).filter isSummaryWrite
        = [Event.writeSummary (summaryPathOf outdirArg)
            (suiteSummary w pattern outdirArg)] := by
      rcases hpost with hp | hp
      · rw [hp]; rfl
      · rw [hp]; rfl
    rw [h1, h2, h3]
    rfl
  · intro c hc
    refine List.mem_append.mpr (Or.inr ?_)
    exact runBands_invoke_mem w (outdirPathOf outdirArg) (detectedFlags w).1
      (detectedFlags w).2 (csvFilesOf w) c hc
  · intro e he cmd
    rcases hpost with hp | hp
    · rw [hp] at he; cases he
    · rw [hp] at he
      rcases List.mem_singleton.mp he with h
      rw [h]
      intro hcon
      cases hcon
  · haveI i1 : IsTotal String strLeRel := ⟨fun a b => lexLe_total a.data b.data⟩
    haveI i2 : IsTrans String strLeRel :=
      ⟨fun a b c h1 h2 => lexLe_trans a.data b.data c.data h1 h2⟩
    exact List.sorted_insertionSort strLeRel w.globMatches

/-- Witness for C6 at a concrete world with a failing band. -/
theorem ci_summary_once_and_ordered_witness :
    (suiteSummary wMixed "pat" "_ci_out").timestamp_utc = wMixed.timestamp ∧
    List.Perm (csvFilesOf wMixed) wMixed.globMatches :=
  ⟨(ci_summary_once_and_ordered wMixed "pat" "_ci_out" rfl (by decide)).2.2.1,
   (ci_summary_once_and_ordered wMixed "pat" "_ci_out" rfl (by decide)).2.2.2.2.2.2.2.2⟩

/- ------------------------------------------------------------------ -/
/- C7: failure-file lifecycle on the filesystem model.                 -/
/- ------------------------------------------------------------------ -/

lemma strLast_append (a b : String) (hb : b.data ≠ []) :
    strLast (a ++ b) = strLast b := by
  unfold strLast
  rw [String.data_append]
  exact List.getLast?_append_of_ne_nil _ hb

lemma strLast_logFile (outdir c : String) :
    strLast (logFileOf outdir c) = some 'g' := by
  unfold logFileOf
  rw [strLast_append _ ".log" (by decide)]
  decide

lemma strLast_failuresPath (o : String) :
    strLast (failuresPathOf o) = some 't' := by
  unfold failuresPathOf
  rw [strLast_append _ failuresName (by decide)]
  decide

lemma strLast_summaryPath (o : String) :
    strLast (summaryPathOf o) = some 'n' := by
  unfold summaryPathOf
  rw [strLast_append _ summaryName (by decide)]
  decide

lemma ne_of_strLast {a b : String} (h : strLast a ≠ strLast b) : a ≠ b :=
  fun he => h (he ▸ rfl)

lemma fsGet_fsSet_self (fs : FS) (p v : String) :
    fsGet (fsSet fs p v) p = some v := by
  induction fs with
  | nil => simp [fsSet, fsGet]
  | cons a t ih =>
      obtain ⟨q, u⟩ := a
      by_cases h : q = p
      · simp [fsSet, fsGet, h]
      · simp [fsSet, fsGet, h, ih]

lemma fsGet_fsSet_ne (fs : FS) (p q v : String) (h : q ≠ p) :
    fsGet (fsSet fs q v) p = fsGet fs p := by
  induction fs with
  | nil => simp [fsSet, fsGet, h]
  | cons a t ih =>
      obtain ⟨x, u⟩ := a
      by_cases hx : x = q
      · subst hx
        simp [fsSet, fsGet, h]
      · rw [show fsSet ((x, u) :: t) q v = (x, u) :: fsSet t q v from if_neg hx]
        show (if x = p then some u else fsGet (fsSet t q v) p)
            = (if x = p then some u else fsGet t p)
        rw [ih]

lemma fsGet_foldl_no_write (p : String) :
    ∀ (evs : List Event) (fs : FS),
      (∀ e ∈ evs, eventWritePath e ≠ some p) →
      fsGet (evs.foldl applyEvent fs) p = fsGet fs p := by
  intro evs
  induction evs with
  | nil => intro fs _; rfl
  | cons e t ih =>
      intro fs hall
      rw [List.foldl_cons,
        ih (applyEvent fs e) fun x hx => hall x (List.mem_cons_of_mem e hx)]
      have he := hall e (List.mem_cons_self e t)
      cases e with
      | mkdirE q => rfl
      | invoke cmd => rfl
      | writeFile q c =>
          have hq : q ≠ p := by
            intro hqp
            exact he (by simp [eventWritePath, hqp])
          exact fsGet_fsSet_ne fs p q c hq
      | writeSummary q s =>
          have hq : q ≠ p := by
            intro hqp
            exact he (by simp [eventWritePath, hqp])
          exact fsGet_fsSet_ne fs p q (summaryText s) hq

lemma suiteEvents_not_failures (w : World) (outdirArg : String) :
    ∀ e ∈ suiteEvents w outdirArg,
      eventWritePath e ≠ some (failuresPathOf outdirArg) := by
  intro e he hcon
  rcases runBands_events_shape w (outdirPathOf outdirArg) (detectedFlags w).1
      (detectedFlags w).2 (csvFilesOf w) e he with ⟨p, hp⟩ | ⟨cmd, hc⟩ | ⟨c, out, ho⟩
  · rw [hp] at hcon; cases hcon
  · rw [hc] at hcon; cases hcon
  · rw [ho] at hcon
    injection hcon with hx
    exact ne_of_strLast
      (by rw [strLast_logFile, strLast_failuresPath]; decide) hx

lemma suiteEvents_not_summaryPath (w : World) (outdirArg : String) :
    ∀ e ∈ suiteEvents w outdirArg,
      eventWritePath e ≠ some (summaryPathOf outdirArg) := by
  intro e he hcon
  rcases runBands_events_shape w (outdirPathOf outdirArg) (detectedFlags w).1
      (detectedFlags w).2 (csvFilesOf w) e he with ⟨p, hp⟩ | ⟨cmd, hc⟩ | ⟨c, out, ho⟩
  · rw [hp] at hcon; cases hcon
  · rw [hc] at hcon; cases hcon
  · rw [ho] at hcon
    injection hcon with hx
    exact ne_of_strLast
      (by rw [strLast_logFile, strLast_summaryPath]; decide) hx

/-- Counterexample to C7 as stated: a successful run (exit 0) does not
delete a failure list left behind by an earlier run, so the failures file
can be present after a run that did not fail. -/
theorem ci_stale_failures_counterexample :
    (mainRun wQuiet "pat" "_ci_out").exitCode = 0 ∧
    fsGet (runFS staleFS (mainRun wQuiet "pat" "_ci_out")) (failuresPathOf "_ci_out")
      = some "stale" := by
  decide

/-- C7 (amended): the failures file is written during a run iff the run
fails (exit 1 or 2); when written on exit 1 its final content is the new
failure list (prior content overwritten), and the summary is rewritten on
every aggregating run; but a run exiting 0 merely leaves the failures path
untouched — it does not delete a stale failures file from an earlier run. -/
theorem ci_failures_file_discipline (w : World) (pattern outdirArg : String) (fs0 : FS) :
    ((∃ cont, Event.writeFile (failuresPathOf outdirArg) cont
        ∈ (mainRun w pattern outdirArg).trace)
      ↔ ((mainRun w pattern outdirArg).exitCode = 1
          ∨ (mainRun w pattern outdirArg).exitCode = 2)) ∧
    ((mainRun w pattern outdirArg).exitCode = 0 →
      fsGet (runFS fs0 (mainRun w pattern outdirArg)) (failuresPathOf outdirArg)
        = fsGet fs0 (failuresPathOf outdirArg)) ∧
    ((mainRun w pattern outdirArg).exitCode = 1 →
      fsGet (runFS fs0 (mainRun w pattern outdirArg)) (failuresPathOf outdirArg)
        = some (joinLines (suiteFailures w outdirArg) ++ "\n")) ∧
    (w.runSostExists = true → w.globMatches ≠ [] →
      fsGet (runFS fs0 (mainRun w pattern outdirArg)) (summaryPathOf outdirArg)
        = some (summaryText (suiteSummary w pattern outdirArg))) := by
  cases hb : w.runSostExists
  · have hm : mainRun w pattern outdirArg
        = ⟨2, [Event.mkdirE (outdirPathOf outdirArg),
               Event.writeFile (failuresPathOf outdirArg)
                 "Missing scripts/run_sost.py\n"]⟩ := by
      unfold mainRun
      rw [hb]
      rfl
    rw [hm]
    refine ⟨?_, ?_, ?_, ?_⟩
    · constructor
      · intro _; exact Or.inr rfl
      · intro _; exact ⟨"Missing scripts/run_sost.py\n", by simp⟩
    · intro hc; simp at hc
    · intro hc; simp at hc
    · intro hc
      exact Bool.noConfusion hc
  · by_cases hGlob : w.globMatches = []
    · have hcsv : (csvFilesOf w).isEmpty = true := by
        rw [(csvFilesOf_eq_nil_iff w).mpr hGlob]
        rfl
      have hm : mainRun w pattern outdirArg
          = ⟨2, [Event.mkdirE (outdirPathOf outdirArg), Event.invoke helpCmd,
                 Event.writeFile (failuresPathOf outdirArg)
                   ("No CSV matched pattern: " ++ pattern ++ "\n")]⟩ := by
        unfold mainRun
        rw [hb]
        simp [hcsv]
      rw [hm]
      refine ⟨?_, ?_, ?_, ?_⟩
      · constructor
        · intro _; exact Or.inr rfl
        · intro _; exact ⟨"No CSV matched pattern: " ++ pattern ++ "\n", by simp⟩
      · intro hc; simp at hc
      · intro hc; simp at hc
      · intro _ hc; exact absurd hGlob hc
    · have hmm := mainRun_agg w pattern outdirArg hb hGlob
      have hbase : ∀ fs : FS,
          fsGet (((([Event.mkdirE (outdirPathOf outdirArg), Event.invoke helpCmd]
              ++ suiteEvents w outdirArg)).foldl applyEvent fs)) (failuresPathOf outdirArg)
            = fsGet fs (failuresPathOf outdirArg) := by
        intro fs
        apply fsGet_foldl_no_write
        intro e he
        rcases List.mem_append.mp he with h | h
        · rcases List.mem_cons.mp h with h1 | h1
          · rw [h1]; intro hc; cases hc
          · rcases List.mem_singleton.mp h1 with h2
            rw [h2]; intro hc; cases hc
        · exact suiteEvents_not_failures w outdirArg e h
      have hbaseS : ∀ fs : FS,
          fsGet (((([Event.mkdirE (outdirPathOf outdirArg), Event.invoke helpCmd]
              ++ suiteEvents w outdirArg)).foldl applyEvent fs)) (summaryPathOf outdirArg)
            = fsGet fs (summaryPathOf outdirArg) := by
        intro fs
        apply fsGet_foldl_no_write
        intro e he
        rcases List.mem_append.mp he with h | h
        · rcases List.mem_cons.mp h with h1 | h1
          · rw [h1]; intro hc; cases hc
          · rcases List.mem_singleton.mp h1 with h2
            rw [h2]; intro hc; cases hc
        · exact suiteEvents_not_summaryPath w outdirArg e h
      have hsum_ne : summaryPathOf outdirArg ≠ failuresPathOf outdirArg :=
        ne_of_strLast (by rw [strLast_summaryPath, strLast_failuresPath]; decide)
      have hfail_ne : failuresPathOf outdirArg ≠ summaryPathOf outdirArg :=
        ne_of_strLast (by rw [strLast_summaryPath, strLast_failuresPath]; decide)
      by_cases hf : (suiteFailures w outdirArg).isEmpty
      · have hm : mainRun w pattern outdirArg
            = ⟨0, ([Event.mkdirE (outdirPathOf outdirArg), Event.invoke helpCmd]
                ++ suiteEvents w outdirArg)
              ++ [Event.writeSummary (summaryPathOf outdirArg)
                  (suiteSummary w pattern outdirArg)]⟩ := by
          rw [hmm]
          unfold aggOutcome
          simp [hf]
        rw [hm]
        refine ⟨?_, ?_, ?_, ?_⟩
        · constructor
          · intro ⟨cont, hmem⟩
            exfalso
            rcases List.mem_append.mp hmem with h | h
            · rcases List.mem_append.mp h with h1 | h1
              · rcases List.mem_cons.mp h1 with h2 | h2
                · cases h2
                · rcases List.mem_singleton.mp h2 with h3
                  cases h3
              · exact suiteEvents_not_failures w outdirArg _ h1 (by rfl)
            · rcases List.mem_singleton.mp h with h3
              cases h3
          · intro hc
            rcases hc with hc | hc
            · simp at hc
            · simp at hc
        · intro _
          show fsGet (List.foldl applyEvent fs0 _) (failuresPathOf outdirArg) = _
          rw [List.foldl_append]
          show fsGet (fsSet _ (summaryPathOf outdirArg) _) (failuresPathOf outdirArg) = _
          rw [fsGet_fsSet_ne _ _ _ _ hsum_ne]
          exact hbase fs0
        · intro hc; simp at hc
        · intro _ _
          show fsGet (List.foldl applyEvent fs0 _) (summaryPathOf outdirArg) = _
          rw [List.foldl_append]
          exact fsGet_fsSet_self _ _ _
      · have hm : mainRun w pattern outdirArg
            = ⟨1, ([Event.mkdirE (outdirPathOf outdirArg), Event.invoke helpCmd]
                ++ suiteEvents w outdirArg)
              ++ [Event.writeSummary (summaryPathOf outdirArg)
                    (suiteSummary w pattern outdirArg),
                  Event.writeFile (failuresPathOf outdirArg)
                    (joinLines (suiteFailures w outdirArg) ++ "\n")]⟩ := by
          rw [hmm]
          unfold aggOutcome
          simp [hf]
        rw [hm]
        refine ⟨?_, ?_, ?_, ?_⟩
        · constructor
          · intro _; exact Or.inl rfl
          · intro _
            refine ⟨joinLines (suiteFailures w outdirArg) ++ "\n", ?_⟩
            exact List.mem_append.mpr (Or.inr (by simp))
        · intro hc; simp at hc
        · intro _
          show fsGet (List.foldl applyEvent fs0 _) (failuresPathOf outdirArg) = _
          rw [List.foldl_append]
          show fsGet (fsSet (fsSet _ (summaryPathOf outdirArg) _)
            (failuresPathOf outdirArg) _) (failuresPathOf outdirArg) = _
          exact fsGet_fsSet_self _ _ _
        · intro _ _
          show fsGet (List.foldl applyEvent fs0 _) (summaryPathOf outdirArg) = _
          rw [List.foldl_append]
          show fsGet (fsSet (fsSet _ (summaryPathOf outdirArg) _)
            (failuresPathOf outdirArg) _) (summaryPathOf outdirArg) = _
          rw [fsGet_fsSet_ne _ _ _ _ hfail_ne]
          exact fsGet_fsSet_self _ _ _

/-- Witness for the amended C7: on the failing concrete run the failures
file ends up holding exactly the new failure list. -/
theorem ci_failures_file_discipline_witness :
    fsGet (runFS [] (mainRun wMixed "pat" "_ci_out")) (failuresPathOf "_ci_out")
      = some (joinLines (suiteFailures wMixed "_ci_out") ++ "\n") :=
  (ci_failures_file_discipline wMixed "pat" "_ci_out" []).2.2.1 (by decide)

end CIBandSuite

namespace SmokeTest

/- ------------------------------------------------------------------ -/
/- C8: the import/version smoke test.                                  -/
/- ------------------------------------------------------------------ -/

/-- C8: the smoke test passes exactly when the import succeeds and yields a
module whose version attribute is a non-empty string; in particular it fails
when the import raises, the attribute is absent, is not a string, or is
empty, and passes for version "1.0.0". -/
theorem smoke_test_characterization :
    (∀ imported, test_import_sost_and_version imported = true ↔
        ∃ s, s ≠ "" ∧ imported = some ⟨some (PyValue.str s)⟩) ∧
    test_import_sost_and_version none = false ∧
    test_import_sost_and_version (some ⟨none⟩) = false ∧
    test_import_sost_and_version (some ⟨some PyValue.nonStr⟩) = false ∧
    test_import_sost_and_version (some ⟨some (PyValue.str "")⟩) = false ∧
    test_import_sost_and_version (some ⟨some (PyValue.str "1.0.0")⟩) = true := by
  refine ⟨?_, rfl, rfl, rfl, by decide, by decide⟩
  intro imported
  cases imported with
  | none => simp [test_import_sost_and_version]
  | some m =>
      cases m with
      | mk ver =>
          cases ver with
          | none => simp [test_import_sost_and_version]
          | some pv =>
              cases pv with
              | nonStr => simp [test_import_sost_and_version]
              | str s =>
                  show (!s.isEmpty) = true ↔ _
                  constructor
                  · intro hs
                    refine ⟨s, ?_, rfl⟩
                    intro he
                    rw [he] at hs
                    exact absurd hs (by decide)
                  · rintro ⟨s2, hne, heq⟩
                    have hs2 : s = s2 := by
                      injection heq with h1
                      injection h1 with h2
                      injection h2 with h3
                      injection h3
                    subst hs2
                    cases h : s.isEmpty
                    · rfl
                    · exact absurd ((String.isEmpty_iff s).mp h) hne

/-- Witness for C8: a library exposing version "1.0.0" passes the test. -/
theorem smoke_test_characterization_witness :
    test_import_sost_and_version (some ⟨some (PyValue.str "1.0.0")⟩) = true :=
  (smoke_test_characterization.1 (some ⟨some (PyValue.str "1.0.0")⟩)).mpr
    ⟨"1.0.0", by decide, rfl⟩

end SmokeTest

namespace CIBandSuite

/- ------------------------------------------------------------------ -/
/- C10: the help probe tolerates failures and empty output.            -/
/- ------------------------------------------------------------------ -/

lemma runBand_congr (w1 w2 : World) (h4 : w1.runTool = w2.runTool)
    (h5 : w1.reportExists = w2.reportExists) (h6 : w1.reportBytes = w2.reportBytes)
    (h7 : w1.sha256 = w2.sha256) (outdir : String) (i f : Option String) (c : String) :
    runBand w1 outdir i f c = runBand w2 outdir i f c := by
  unfold runBand collectReports sha256_file
  rw [h4, h5, h6, h7]

lemma runBands_congr (w1 w2 : World) (h4 : w1.runTool = w2.runTool)
    (h5 : w1.reportExists = w2.reportExists) (h6 : w1.reportBytes = w2.reportBytes)
    (h7 : w1.sha256 = w2.sha256) (outdir : String) (i f : Option String) :
    ∀ csvs, runBands w1 outdir i f csvs = runBands w2 outdir i f csvs := by
  intro csvs
  induction csvs with
  | nil => rfl
  | cons c t ih =>
      simp only [runBands, runBand_congr w1 w2 h4 h5 h6 h7, ih]

lemma mainRun_congr (w1 w2 : World) (h1 : w1.runSostExists = w2.runSostExists)
    (h2 : w1.helpRun.out = w2.helpRun.out) (h3 : w1.globMatches = w2.globMatches)
    (h4 : w1.runTool = w2.runTool) (h5 : w1.reportExists = w2.reportExists)
    (h6 : w1.reportBytes = w2.reportBytes) (h7 : w1.sha256 = w2.sha256)
    (h8 : w1.timestamp = w2.timestamp) (pattern outdirArg : String) :
    mainRun w1 pattern outdirArg = mainRun w2 pattern outdirArg := by
  unfold mainRun aggOutcome suiteSummary suiteResults suiteFailures suiteEvents
    detectedFlags read_help csvFilesOf
  rw [runBands_congr w1 w2 h4 h5 h6 h7, h1, h2, h3, h8]

/-- C10: the driver ignores the exit code of the `--help` probe — two runs
differing only in that exit code behave identically; and when the captured
help output is empty no flag is detected, every fixture command is the
positional fallback with no output flag, and a run with the tool present and
fixtures matched still completes with exit 0 or 1 rather than aborting. -/
theorem ci_help_probe_tolerant (w : World) (pattern outdirArg : String) (x y : Int) :
    mainRun { w with helpRun := ⟨x, w.helpRun.out⟩ } pattern outdirArg
      = mainRun { w with helpRun := ⟨y, w.helpRun.out⟩ } pattern outdirArg ∧
    (w.helpRun.out = "" →
      detectedFlags w = (none, none) ∧
      (∀ c, bandCmd w outdirArg c = [sysExecutable, runSostPath, c]) ∧
      (w.runSostExists = true → w.globMatches ≠ [] →
        (mainRun w pattern outdirArg).exitCode = 0
          ∨ (mainRun w pattern outdirArg).exitCode = 1)) := by
  refine ⟨mainRun_congr { w with helpRun := ⟨x, w.helpRun.out⟩ }
    { w with helpRun := ⟨y, w.helpRun.out⟩ }
    rfl rfl rfl rfl rfl rfl rfl rfl pattern outdirArg, ?_⟩
  intro hOut
  have hdf : detectedFlags w = (none, none) := by
    unfold detectedFlags read_help
    rw [hOut]
    decide
  refine ⟨hdf, ?_, ?_⟩
  · intro c
    unfold bandCmd
    rw [hdf]
    rfl
  · intro hE hG
    rw [mainRun_agg w pattern outdirArg hE hG, aggOutcome_exit]
    by_cases h : (suiteFailures w outdirArg).isEmpty
    · left; simp [h]
    · right; simp [h]

/-- Witness for C10 at a world whose help probe printed nothing. -/
theorem ci_help_probe_tolerant_witness :
    bandCmd wQuiet "_ci_out" "/repo/test_data/band_a.csv"
      = [sysExecutable, runSostPath, "/repo/test_data/band_a.csv"] :=
  ((ci_help_probe_tolerant wQuiet "pat" "_ci_out" 0 7).2 rfl).2.1
    "/repo/test_data/band_a.csv"

end CIBandSuite
